import Mathlib

/-
Verification of the chapter-segmentation and audio-assembly pipeline of the
ebook2audiobookEspeak repository (src/gradio_launch.py and src/app.py).

Convention: a Python `str` is modelled as `List Char` (a Python string is a
sequence of code points).  Exit codes of external subprocesses and the sizes
of files they produce are inputs of the models: the embedded functions mirror
the control flow of the source as a function of those observations.
-/

/-- Whitespace as recognised by Python `str.strip` / `str.isspace` on ASCII. -/
def pyIsSpace (c : Char) : Bool :=
  c = ' ' || c = '\t' || c = '\n' || c = '\r' || c = Char.ofNat 11 || c = Char.ofNat 12

/-- Truthiness of `text.strip()` in Python: true iff some character is not whitespace. -/
def pyNonBlank (t : List Char) : Bool :=
  t.any (fun c => !(pyIsSpace c))

/-- Test whether `pat` occurs at the head of `l` (Python `str.startswith`). -/
def beginsWith : List Char → List Char → Bool
  | [], _ => true
  | _ :: _, [] => false
  | c :: cs, d :: ds => c = d && beginsWith cs ds

/-- Chapter segmentation state update of `save_chapters_as_text`
(src/gradio_launch.py lines 175-189): a merged short section is appended to the
most recently created chapter file, i.e. to the last element of the list. -/
def appendToLast : List (Nat × List Char) → List Char → List (Nat × List Char)
  | [], _ => []
  | [(i, t)], u => [(i, t ++ u)]
  | p :: q :: rest, u => p :: appendToLast (q :: rest) u

/-- Loop body of `save_chapters_as_text`: iterate document items in order,
skip blank items, merge a non-blank item shorter than 2300 characters into the
previous chapter when one exists (`previous_filename` non-empty iff the
accumulator is non-empty), otherwise start chapter file `chapter_<counter>.txt`
and increment the counter. -/
def save_chapters_go : List (List Char) → Nat → List (Nat × List Char) → List (Nat × List Char)
  | [], _, acc => acc
  | t :: rest, counter, acc =>
    if pyNonBlank t then
      if decide (t.length < 2300) && !acc.isEmpty then
        save_chapters_go rest counter (appendToLast acc ('\n' :: t))
      else
        save_chapters_go rest (counter + 1) (acc ++ [(counter, t)])
    else
      save_chapters_go rest counter acc

/-- Embedding of `save_chapters_as_text` (src/gradio_launch.py lines 166-189):
from the extracted text of each document item, the list of produced chapter
files as (index, content) pairs, in the order they are created.
`chapter_counter` starts at 0 and `previous_filename` starts empty. -/
def save_chapters_as_text (items : List (List Char)) : List (Nat × List Char) :=
  save_chapters_go items 0 []

/-- Number of document items whose stripped text is non-empty. -/
def nonEmptyCount (items : List (List Char)) : Nat :=
  (items.filter pyNonBlank).length

/-- Number of merge events of the segmentation loop: non-blank items of length
below 2300 arriving while a chapter already exists (`prev` records whether a
previous chapter file exists, as `previous_filename` does in the source). -/
def mergeEvents : List (List Char) → Bool → Nat
  | [], _ => 0
  | t :: rest, prev =>
    if pyNonBlank t then
      if decide (t.length < 2300) && prev then
        mergeEvents rest true + 1
      else
        mergeEvents rest true
    else
      mergeEvents rest prev

/-- Value of a maximal digit run (Python `int` on a digit string). -/
def digitsToNat (ds : List Char) : Nat :=
  ds.foldl (fun n c => n * 10 + (c.toNat - 48)) 0

/-- First maximal run of digits in a string, as matched by the first result of
`re.findall` with a digit-run pattern. -/
def firstNumber : List Char → Option (List Char)
  | [] => none
  | c :: rest =>
    if c.isDigit then some (c :: rest.takeWhile Char.isDigit) else firstNumber rest

/-- Embedding of `sort_key` (src/gradio_launch.py lines 52-54): the integer
value of the first digit run of the filename, 0 when there is none. -/
def sort_key (s : List Char) : Nat :=
  match firstNumber s with
  | some ds => digitsToNat ds
  | none => 0

/-- Stable insertion of a file name into a list already sorted by `sort_key`. -/
def insertByKey (x : List Char) : List (List Char) → List (List Char)
  | [] => [x]
  | y :: ys => if sort_key x ≤ sort_key y then x :: y :: ys else y :: insertByKey x ys

/-- Embedding of Python `sorted(files, key=sort_key)` as used on the chapter
audio files in `create_m4b_from_chapters` (src/gradio_launch.py line 132):
a stable sort by the numeric `sort_key`. -/
def sortChapterFiles : List (List Char) → List (List Char)
  | [] => []
  | x :: xs => insertByKey x (sortChapterFiles xs)

/-- Lexicographic (code-point) order on strings, the order a plain
`sorted(files)` without the numeric key would use. -/
def lexLt : List Char → List Char → Bool
  | [], [] => false
  | [], _ :: _ => true
  | _ :: _, [] => false
  | a :: as, b :: bs => if a < b then true else if b < a then false else lexLt as bs

/-- One `[CHAPTER]` block of the ffmpeg metadata file, with its millisecond
offsets and title line. -/
structure ChapterMark where
  START : Nat
  END : Nat
  title : String
deriving DecidableEq

/-- Loop of `generate_ffmpeg_metadata` (src/gradio_launch.py lines 75-83):
`start_time` accumulates durations, `index` is the enumeration counter. -/
def genMetaGo : List Nat → Nat → Nat → List ChapterMark
  | [], _, _ => []
  | d :: rest, startTime, index =>
    { START := startTime, END := startTime + d, title := "Chapter " ++ toString (index + 1) }
      :: genMetaGo rest (startTime + d) (index + 1)

/-- Embedding of `generate_ffmpeg_metadata`: from the millisecond durations of
the chapter audio files, in order, the chapter marker blocks written. -/
def generate_ffmpeg_metadata (durations : List Nat) : List ChapterMark :=
  genMetaGo durations 0 0

/-- The four ffmpeg invocations of `create_m4b` (src/gradio_launch.py lines
85-128): full mux (audio + metadata + cover), cover without metadata, neither,
and plain audio re-encode. -/
inductive MuxLevel where
  | full
  | coverOnly
  | bare
  | audioOnly
deriving DecidableEq

/-- Argument list of the first ffmpeg call of `create_m4b` (lines 88-96):
audio, metadata file, optional cover art, and the output path. -/
def ffmpeg_cmd_full (combined_wav metadata_file : List Char) (cover_image : Option (List Char)) (output_m4b : List Char) : List (List Char) :=
  ["ffmpeg".toList, "-i".toList, combined_wav, "-i".toList, metadata_file] ++
  (match cover_image with
   | some cover =>
     ["-i".toList, cover, "-map".toList, "0:a".toList, "-map".toList, "2:v".toList,
      "-c:v".toList, "png".toList, "-disposition:v".toList, "attached_pic".toList]
   | none => ["-map".toList, "0:a".toList]) ++
  ["-map_metadata".toList, "1".toList, "-c:a".toList, "aac".toList, "-b:a".toList, "192k".toList] ++
  [output_m4b]

/-- Argument list of the second ffmpeg call of `create_m4b` (lines 103-111),
built after the first call fails: cover art kept, metadata dropped.  The code
never appends `output_m4b` to this command. -/
def ffmpeg_cmd_cover_only (combined_wav : List Char) (cover_image : Option (List Char)) : List (List Char) :=
  ["ffmpeg".toList, "-i".toList, combined_wav] ++
  (match cover_image with
   | some cover =>
     ["-i".toList, cover, "-map".toList, "0:a".toList, "-map".toList, "2:v".toList,
      "-c:v".toList, "png".toList, "-disposition:v".toList, "attached_pic".toList]
   | none => ["-map".toList, "0:a".toList]) ++
  ["-c:a".toList, "aac".toList, "-b:a".toList, "192k".toList]

/-- Argument list of the third ffmpeg call of `create_m4b` (lines 117-119):
no metadata and no cover.  The code never appends `output_m4b` here either. -/
def ffmpeg_cmd_bare (combined_wav : List Char) : List (List Char) :=
  ["ffmpeg".toList, "-i".toList, combined_wav, "-map".toList, "0:a".toList,
   "-c:a".toList, "aac".toList, "-b:a".toList, "192k".toList]

/-- Argument list of the fourth ffmpeg call of `create_m4b` (line 125):
plain audio re-encode into the output path. -/
def ffmpeg_cmd_audio_only (combined_wav output_m4b : List Char) : List (List Char) :=
  ["ffmpeg".toList, "-i".toList, combined_wav, "-c:a".toList, "aac".toList,
   "-b:a".toList, "192k".toList, output_m4b]

/-- Control flow of `create_m4b` (lines 98-128) as a function of the exit
codes `e1`, `e2`, `e3` of the first three ffmpeg calls: the list of levels
attempted, in order.  The first call always runs; the second runs inside the
first `except`; the third runs inside the second `except`; the fourth call's
`try` block sits after the third call's `try`/`except` at the same indentation
inside the second `except`, so it runs whenever the second call failed,
independently of `e3`. -/
def create_m4b_attempts (e1 e2 e3 : Int) : List MuxLevel :=
  if e1 = 0 then [MuxLevel.full]
  else if e2 = 0 then [MuxLevel.full, MuxLevel.coverOnly]
  else
    (fun _ => [MuxLevel.full, MuxLevel.coverOnly, MuxLevel.bare, MuxLevel.audioOnly]) e3

/-- Left-to-right non-overlapping replacement of the two-character run `--`
by a single space, as Python `sentence.replace` with those arguments does. -/
def replaceDashes : List Char → List Char
  | '-' :: '-' :: rest => ' ' :: replaceDashes rest
  | c :: rest => c :: replaceDashes rest
  | [] => []

/-- Embedding of `sanitize_sentence` (src/gradio_launch.py lines 258-261):
replace `--` by a space, then drop double quotes (code point 34) and single
quotes (code point 39). -/
def sanitize_sentence (s : List Char) : List Char :=
  (replaceDashes s).filter (fun c => c != Char.ofNat 34 && c != Char.ofNat 39)

/-- Observed behaviour of the synthesizer on one sentence: exit code of the
first espeak-ng call, exit code of the retry on the sanitized text (consulted
only when the first call fails), and the byte size of the temporary wav. -/
structure SynthOutcome where
  rc1 : Int
  rc2 : Int
  size : Nat
deriving DecidableEq

/-- Text for which an espeak-ng call exited zero in the per-sentence loop of
`convert_chapters_to_audio_espeak` (src/gradio_launch.py lines 285-301): the
original sentence when the first call succeeds, the sanitized sentence when
only the retry succeeds, nothing when both fail. -/
def synth_attempt_text (o : SynthOutcome) (s : List Char) : Option (List Char) :=
  if o.rc1 = 0 then some s
  else if o.rc2 = 0 then some (sanitize_sentence s)
  else none

/-- Audio contributed by one sentence (lines 302-305): the successful call's
text, provided the produced wav is not zero bytes; otherwise nothing. -/
def process_sentence (o : SynthOutcome) (s : List Char) : Option (List Char) :=
  match synth_attempt_text o s with
  | some t => if o.size > 0 then some t else none
  | none => none

/-- The sentence loop of `convert_chapters_to_audio_espeak`: the chapter audio
as the ordered list of synthesized segments, each identified by the text that
was actually spoken; skipped sentences contribute nothing and the loop
continues with the next sentence. -/
def convert_chapter_audio : List SynthOutcome → List (List Char) → List (List Char)
  | _, [] => []
  | [], _ :: _ => []
  | o :: os, s :: ss =>
    match process_sentence o s with
    | some seg => seg :: convert_chapter_audio os ss
    | none => convert_chapter_audio os ss

/-- Per-sentence view of the same loop: the i-th entry records whether the
i-th sentence contributed audio and, if so, which text was spoken. -/
def sentence_slots (os : List SynthOutcome) (ss : List (List Char)) : List (Option (List Char)) :=
  List.zipWith process_sentence os ss

/-- Observed behaviour of one external process: its exit code and its captured
stderr stream. -/
structure ProcOutcome where
  returncode : Int
  stderrBytes : List Nat
deriving DecidableEq

/-- A raised `CalledProcessError`: the failing command, its exit code and the
diagnostic stream attached to the exception. -/
structure CalledProcessErr where
  cmd : List String
  returncode : Int
  stderrBytes : List Nat
deriving DecidableEq

/-- Embedding of the piped-strategy epilogue of `convert_ebook_to_audio`
(src/app.py lines 269-291 for mp3, 304-327 for ogg): after both processes are
waited for, the encoder's exit code is checked first, then the synthesizer's;
a non-zero code raises with that process's captured stderr, and only when both
are zero does the branch report success. -/
def run_piped (cmd_speak cmd_enc : List String) (speak enc : ProcOutcome) : Except CalledProcessErr Unit :=
  if enc.returncode ≠ 0 then
    Except.error { cmd := cmd_enc, returncode := enc.returncode, stderrBytes := enc.stderrBytes }
  else if speak.returncode ≠ 0 then
    Except.error { cmd := cmd_speak, returncode := speak.returncode, stderrBytes := speak.stderrBytes }
  else
    Except.ok ()

/-- Embedding of the ebook-to-TXT step of `convert_ebook_to_audio`
(src/app.py lines 209-237): a non-zero exit of `ebook-convert` aborts with a
Calibre error; otherwise a missing or zero-byte output file aborts with a
missing-or-empty error; otherwise the pipeline continues.  The converter is
invoked exactly once. -/
def convert_to_txt_step (rc : Int) (outputExists : Bool) (outputSize : Nat) : Except String Unit :=
  if rc ≠ 0 then
    Except.error "Calibre conversion failed"
  else if !outputExists || outputSize = 0 then
    Except.error "output TXT file is missing or empty"
  else
    Except.ok ()

/-- Embedding of the audio-generation postcondition of `convert_ebook_to_audio`
(src/app.py lines 370-375) on the single-call wav path: given the exit code of
the audio command and the existence and byte size of the produced file, the
audio path returned to the caller, or `none` when an error message is returned
instead. -/
def convert_result_audio (rc : Int) (outputExists : Bool) (outputSize : Nat) (path : List Char) : Option (List Char) :=
  if rc ≠ 0 then none
  else if !outputExists || outputSize < 1024 then none
  else some path

/-- First index at which `pat` occurs in `text`, if any. -/
def firstMatchIdx (pat : List Char) : List Char → Option Nat
  | [] => if beginsWith pat [] then some 0 else none
  | c :: t =>
    if beginsWith pat (c :: t) then some 0
    else (firstMatchIdx pat t).map (fun k => k + 1)

/-- Embedding of Python `text.find(sentence)` (src/gradio_launch.py line 223):
the first index at which the pattern occurs, or -1. -/
def py_find (text pat : List Char) : Int :=
  match firstMatchIdx pat text with
  | some k => (k : Int)
  | none => -1

/-- The pattern occurs in the text at index `i`. -/
def occursAt (text pat : List Char) (i : Nat) : Prop :=
  beginsWith pat (text.drop i) = true

instance (text pat : List Char) (i : Nat) : Decidable (occursAt text pat i) := by
  unfold occursAt
  infer_instance

/-- Text within which `process_chapter_files` (src/gradio_launch.py lines
218-220) searches for each sentence: the raw chapter file content with the
marker `NEWCHAPTERABC` prepended when the content is non-empty. -/
def chapter_search_text (raw : List Char) : List Char :=
  if raw.isEmpty then raw else "NEWCHAPTERABC".toList ++ raw

/-- One CSV row written by `process_chapter_files` (line 225). -/
structure SentenceRow where
  sentence : List Char
  start_location : Int
  end_location : Int
  chapter : Nat
deriving DecidableEq

/-- Embedding of the per-chapter loop of `process_chapter_files` (lines
216-225): the tokenizer's sentences are recorded with start offset
`text.find(sentence)` and end offset start plus sentence length, where `text`
is the marker-prefixed chapter content. -/
def process_chapter_rows (chapter_number : Nat) (raw : List Char) (sentences : List (List Char)) : List SentenceRow :=
  sentences.map (fun s =>
    { sentence := s
      start_location := py_find (chapter_search_text raw) s
      end_location := py_find (chapter_search_text raw) s + s.length
      chapter := chapter_number })

lemma appendToLast_length (acc : List (Nat × List Char)) (u : List Char) :
    (appendToLast acc u).length = acc.length := by
  induction acc with
  | nil => rfl
  | cons p rest ih =>
    cases rest with
    | nil => obtain ⟨i, t⟩ := p; rfl
    | cons q rest2 => simpa [appendToLast] using ih

lemma appendToLast_map_fst (acc : List (Nat × List Char)) (u : List Char) :
    (appendToLast acc u).map Prod.fst = acc.map Prod.fst := by
  induction acc with
  | nil => rfl
  | cons p rest ih =>
    cases rest with
    | nil => obtain ⟨i, t⟩ := p; rfl
    | cons q rest2 => simpa [appendToLast] using ih

lemma appendToLast_isEmpty (acc : List (Nat × List Char)) (u : List Char) :
    (appendToLast acc u).isEmpty = acc.isEmpty := by
  cases acc with
  | nil => rfl
  | cons p rest =>
    cases rest with
    | nil => obtain ⟨i, t⟩ := p; rfl
    | cons q rest2 => rfl

lemma appendToLast_head (acc : List (Nat × List Char)) (u : List Char) (i : Nat) (s : List Char)
    (h : acc.head? = some (i, s)) :
    ∃ r, (appendToLast acc u).head? = some (i, s ++ r) := by
  cases acc with
  | nil => simp at h
  | cons p rest =>
    obtain ⟨j, t⟩ := p
    simp only [List.head?_cons, Option.some.injEq, Prod.mk.injEq] at h
    obtain ⟨rfl, rfl⟩ := h
    cases rest with
    | nil => exact ⟨u, by simp [appendToLast]⟩
    | cons q rest2 => exact ⟨[], by simp [appendToLast]⟩

lemma save_chapters_go_map_fst (items : List (List Char)) :
    ∀ (c : Nat) (acc : List (Nat × List Char)), c = acc.length →
      acc.map Prod.fst = List.range c →
      (save_chapters_go items c acc).map Prod.fst
        = List.range (save_chapters_go items c acc).length := by
  induction items with
  | nil =>
    intro c acc h1 h2
    simpa [save_chapters_go, ← h1] using h2
  | cons t rest ih =>
    intro c acc h1 h2
    by_cases hb : pyNonBlank t = true
    · by_cases hm : (decide (t.length < 2300) && !acc.isEmpty) = true
      · have hgo : save_chapters_go (t :: rest) c acc
            = save_chapters_go rest c (appendToLast acc ('\n' :: t)) := by
          simp [save_chapters_go, hb, hm]
        rw [hgo]
        apply ih
        · rw [appendToLast_length]; exact h1
        · rw [appendToLast_map_fst]; exact h2
      · have hgo : save_chapters_go (t :: rest) c acc
            = save_chapters_go rest (c + 1) (acc ++ [(c, t)]) := by
          simp [save_chapters_go, hb, hm]
        rw [hgo]
        apply ih
        · simp [h1]
        · simp [h2, List.range_succ]
    · have hgo : save_chapters_go (t :: rest) c acc = save_chapters_go rest c acc := by
        simp [save_chapters_go, hb]
      rw [hgo]
      exact ih c acc h1 h2


lemma save_chapters_go_length (items : List (List Char)) :
    ∀ (c : Nat) (acc : List (Nat × List Char)),
      (save_chapters_go items c acc).length + mergeEvents items (!acc.isEmpty)
        = acc.length + nonEmptyCount items := by
  induction items with
  | nil =>
    intro c acc
    simp [save_chapters_go, mergeEvents, nonEmptyCount]
  | cons t rest ih =>
    intro c acc
    by_cases hb : pyNonBlank t = true
    · have hcount : nonEmptyCount (t :: rest) = 1 + nonEmptyCount rest := by
        simp [nonEmptyCount, List.filter, hb, Nat.add_comm]
      by_cases hm : (decide (t.length < 2300) && !acc.isEmpty) = true
      · have hmm := hm
        rw [Bool.and_eq_true] at hmm
        have hgo : save_chapters_go (t :: rest) c acc
            = save_chapters_go rest c (appendToLast acc ('\n' :: t)) := by
          simp [save_chapters_go, hb, hm]
        have hme : mergeEvents (t :: rest) (!acc.isEmpty)
            = mergeEvents rest true + 1 := by
          simp [mergeEvents, hb, hmm.1, hmm.2]
        have hae : (!(appendToLast acc ('\n' :: t)).isEmpty) = true := by
          rw [appendToLast_isEmpty]
          exact hmm.2
        have h3 := ih c (appendToLast acc ('\n' :: t))
        rw [hae, appendToLast_length] at h3
        rw [hgo, hme, hcount]
        omega
      · have hmf : (decide (t.length < 2300) && !acc.isEmpty) = false :=
          Bool.eq_false_iff.mpr hm
        have hgo : save_chapters_go (t :: rest) c acc
            = save_chapters_go rest (c + 1) (acc ++ [(c, t)]) := by
          simp [save_chapters_go, hb, hmf]
        have hme : mergeEvents (t :: rest) (!acc.isEmpty)
            = mergeEvents rest true := by
          simp [mergeEvents, hb, hmf]
        have hae : (!(acc ++ [(c, t)]).isEmpty) = true := by
          simp
        have h3 := ih (c + 1) (acc ++ [(c, t)])
        rw [hae] at h3
        simp only [List.length_append, List.length_singleton] at h3
        rw [hgo, hme, hcount]
        omega
    · have hgo : save_chapters_go (t :: rest) c acc = save_chapters_go rest c acc := by
        simp [save_chapters_go, hb]
      have hme : mergeEvents (t :: rest) (!acc.isEmpty)
          = mergeEvents rest (!acc.isEmpty) := by
        simp [mergeEvents, hb]
      have hcount : nonEmptyCount (t :: rest) = nonEmptyCount rest := by
        simp [nonEmptyCount, List.filter, hb]
      rw [hgo, hme, hcount]
      exact ih c acc

lemma save_chapters_go_skip_blank (pre : List (List Char)) :
    ∀ (rest : List (List Char)) (c : Nat) (acc : List (Nat × List Char)),
      (∀ u ∈ pre, pyNonBlank u = false) →
      save_chapters_go (pre ++ rest) c acc = save_chapters_go rest c acc := by
  induction pre with
  | nil => intro rest c acc _; rfl
  | cons t pre2 ih =>
    intro rest c acc h
    have hb : pyNonBlank t = false := h t (by simp)
    have hb2 : ¬ (pyNonBlank t = true) := by simp [hb]
    rw [List.cons_append]
    have hgo : save_chapters_go (t :: (pre2 ++ rest)) c acc
        = save_chapters_go (pre2 ++ rest) c acc := by
      simp [save_chapters_go, hb2]
    rw [hgo]
    exact ih rest c acc (fun u hu => h u (by simp [hu]))

lemma save_chapters_go_head (items : List (List Char)) :
    ∀ (c : Nat) (acc : List (Nat × List Char)) (i : Nat) (s : List Char),
      acc.head? = some (i, s) →
      ∃ r, (save_chapters_go items c acc).head? = some (i, s ++ r) := by
  induction items with
  | nil =>
    intro c acc i s h
    exact ⟨[], by simpa [save_chapters_go] using h⟩
  | cons t rest ih =>
    intro c acc i s h
    by_cases hb : pyNonBlank t = true
    · by_cases hm : (decide (t.length < 2300) && !acc.isEmpty) = true
      · have hgo : save_chapters_go (t :: rest) c acc
            = save_chapters_go rest c (appendToLast acc ('\n' :: t)) := by
          simp [save_chapters_go, hb, hm]
        obtain ⟨r0, hr0⟩ := appendToLast_head acc ('\n' :: t) i s h
        obtain ⟨r1, hr1⟩ := ih c (appendToLast acc ('\n' :: t)) i (s ++ r0) hr0
        rw [hgo]
        exact ⟨r0 ++ r1, by rw [hr1, List.append_assoc]⟩
      · have hmf : (decide (t.length < 2300) && !acc.isEmpty) = false :=
          Bool.eq_false_iff.mpr hm
        have hgo : save_chapters_go (t :: rest) c acc
            = save_chapters_go rest (c + 1) (acc ++ [(c, t)]) := by
          simp [save_chapters_go, hb, hmf]
        have hh : (acc ++ [(c, t)]).head? = some (i, s) := by
          cases acc with
          | nil => simp at h
          | cons p acc2 => simpa using h
        rw [hgo]
        exact ih (c + 1) (acc ++ [(c, t)]) i s hh
    · have hgo : save_chapters_go (t :: rest) c acc = save_chapters_go rest c acc := by
        simp [save_chapters_go, hb]
      rw [hgo]
      exact ih c acc i s h

lemma beginsWith_append (t r : List Char) : beginsWith t (t ++ r) = true := by
  induction t with
  | nil => rfl
  | cons c cs ih => simp [beginsWith, ih]

lemma save_chapters_head_of_first_nonblank (pre : List (List Char)) (t : List Char)
    (post : List (List Char)) (hpre : ∀ u ∈ pre, pyNonBlank u = false)
    (ht : pyNonBlank t = true) :
    ∃ r, (save_chapters_as_text (pre ++ t :: post)).head? = some (0, t ++ r) := by
  unfold save_chapters_as_text
  rw [save_chapters_go_skip_blank pre (t :: post) 0 [] hpre]
  have hm : (decide (t.length < 2300) && !(List.isEmpty ([] : List (Nat × List Char)))) = false := by
    simp
  have hgo : save_chapters_go (t :: post) 0 []
      = save_chapters_go post 1 [(0, t)] := by
    simp [save_chapters_go, ht, hm]
  rw [hgo]
  exact save_chapters_go_head post 1 [(0, t)] 0 t (by simp)

/-- Claim C1 (amended): for every input document, the chapter segmenter
assigns chapter indices that are contiguous, start at 0 (not 1), and reflect
document order: the list of indices of the produced chapter files, in
production order, is exactly 0, 1, ..., n-1. -/
theorem c1_chapter_indices_contiguous_from_zero (items : List (List Char)) :
    (save_chapters_as_text items).map Prod.fst
      = List.range (save_chapters_as_text items).length :=
  save_chapters_go_map_fst items 0 [] rfl rfl

/-- Claim C1, counterexample to the claim as stated: on a document with a
single non-empty item the segmenter produces exactly one chapter artifact and
its index is 0, not 1 (the file written is `chapter_0.txt`). -/
theorem c1_first_chapter_has_index_zero :
    (save_chapters_as_text ["Hello".toList]).map Prod.fst = [0]
    ∧ (save_chapters_as_text ["Hello".toList]).map Prod.fst ≠ [1] := by
  constructor
  · decide
  · decide

/-- Claim C2: the number of chapters produced plus the number of merge events
(non-empty items shorter than 2300 characters arriving while a chapter already
exists) equals the number of non-empty items, so the chapter count never
exceeds the non-empty item count; and the very first non-empty item always
starts the first chapter regardless of its length: the head of the produced
list is chapter 0 and its content begins with that item's text. -/
theorem c2_chapter_count_and_first_item (items : List (List Char)) :
    (save_chapters_as_text items).length + mergeEvents items false = nonEmptyCount items
    ∧ (save_chapters_as_text items).length ≤ nonEmptyCount items
    ∧ ∀ pre t post, items = pre ++ t :: post →
        (∀ u ∈ pre, pyNonBlank u = false) → pyNonBlank t = true →
        ∀ p, (save_chapters_as_text items).head? = some p →
          p.1 = 0 ∧ beginsWith t p.2 = true := by
  have hlen : (save_chapters_as_text items).length + mergeEvents items false
      = nonEmptyCount items := by
    have h0 := save_chapters_go_length items 0 []
    simpa [save_chapters_as_text] using h0
  refine ⟨hlen, by omega, ?_⟩
  intro pre t post hitems hpre ht p hp
  obtain ⟨r, hr⟩ := save_chapters_head_of_first_nonblank pre t post hpre ht
  rw [← hitems, hp] at hr
  obtain rfl := Option.some.inj hr
  exact ⟨rfl, beginsWith_append t r⟩

/-- Claim C2, witness: on the document [" ", "Hi"] the count equation holds
(one chapter, zero merges, one non-empty item) and the first non-empty item
"Hi", although far below the 2300-character threshold, starts the first
chapter, whose content begins with "Hi". -/
theorem c2_chapter_count_and_first_item_witness :
    (save_chapters_as_text [" ".toList, "Hi".toList]).length
        + mergeEvents [" ".toList, "Hi".toList] false
      = nonEmptyCount [" ".toList, "Hi".toList]
    ∧ ((0, "Hi".toList) : Nat × List Char).1 = 0
    ∧ beginsWith "Hi".toList ((0, "Hi".toList) : Nat × List Char).2 = true :=
  ⟨(c2_chapter_count_and_first_item [" ".toList, "Hi".toList]).1,
   (c2_chapter_count_and_first_item [" ".toList, "Hi".toList]).2.2
     [" ".toList] "Hi".toList [] rfl (by decide) (by decide) (0, "Hi".toList) (by decide)⟩

lemma mem_insertByKey (x b : List Char) (l : List (List Char)) :
    b ∈ insertByKey x l ↔ b = x ∨ b ∈ l := by
  induction l with
  | nil => simp [insertByKey]
  | cons y ys ih =>
    by_cases hxy : sort_key x ≤ sort_key y
    · simp [insertByKey, hxy]
    · simp only [insertByKey, if_neg hxy, List.mem_cons, ih]
      tauto

lemma sorted_insertByKey (x : List Char) (l : List (List Char))
    (h : l.Sorted (fun a b => sort_key a ≤ sort_key b)) :
    (insertByKey x l).Sorted (fun a b => sort_key a ≤ sort_key b) := by
  induction l with
  | nil => simp [insertByKey]
  | cons y ys ih =>
    rw [List.sorted_cons] at h
    by_cases hxy : sort_key x ≤ sort_key y
    · rw [show insertByKey x (y :: ys) = x :: y :: ys from by simp [insertByKey, hxy]]
      rw [List.sorted_cons]
      refine ⟨?_, List.sorted_cons.mpr h⟩
      intro b hb
      rcases List.mem_cons.mp hb with rfl | hb2
      · exact hxy
      · exact le_trans hxy (h.1 b hb2)
    · rw [show insertByKey x (y :: ys) = y :: insertByKey x ys from by simp [insertByKey, hxy]]
      rw [List.sorted_cons]
      refine ⟨?_, ih h.2⟩
      intro b hb
      rcases (mem_insertByKey x b ys).mp hb with rfl | hb2
      · exact le_of_not_le hxy
      · exact h.1 b hb2

/-- Claim C6: chapter artifacts are assembled in the order of the numeric
chapter index extracted from the filename (first digit run), not in lexical
filename order: the sorted file list is always ordered by `sort_key`, and on
the pair chapter_10 / chapter_2 the numeric sort puts chapter_2 first even
though plain lexicographic string order would put chapter_10 first. -/
theorem c6_assembly_sorted_by_numeric_chapter_index :
    (∀ files : List (List Char),
        (sortChapterFiles files).Sorted (fun a b => sort_key a ≤ sort_key b))
    ∧ sortChapterFiles ["chapter_10.txt".toList, "chapter_2.txt".toList]
        = ["chapter_2.txt".toList, "chapter_10.txt".toList]
    ∧ sort_key "chapter_2.txt".toList < sort_key "chapter_10.txt".toList
    ∧ lexLt "chapter_10.txt".toList "chapter_2.txt".toList = true := by
  refine ⟨?_, by decide, by decide, by decide⟩
  intro files
  induction files with
  | nil => simp [sortChapterFiles]
  | cons x xs ih => exact sorted_insertByKey x _ ih

/-- Claim C3 (code bug): when the full-mux call and the cover-only call both
exit non-zero but the bare (no metadata, no cover) call exits zero, the code
nevertheless also attempts the audio-only re-encode — contradicting the spec,
which says each level is attempted only after the previous level failed.
Moreover the cover-only and bare ffmpeg command lines never contain the output
path, so those tiers cannot produce the final output, while the full and
audio-only commands do contain it. -/
theorem c3_mux_fallback_attempts_level4_despite_level3_success :
    create_m4b_attempts 1 1 0
        = [MuxLevel.full, MuxLevel.coverOnly, MuxLevel.bare, MuxLevel.audioOnly]
    ∧ MuxLevel.audioOnly ∈ create_m4b_attempts 1 1 0
    ∧ "out.m4b".toList ∉
        ffmpeg_cmd_cover_only "combined.wav".toList (some "cover.jpg".toList)
    ∧ "out.m4b".toList ∉ ffmpeg_cmd_bare "combined.wav".toList
    ∧ "out.m4b".toList ∈
        ffmpeg_cmd_full "combined.wav".toList "metadata.txt".toList
          (some "cover.jpg".toList) "out.m4b".toList
    ∧ "out.m4b".toList ∈
        ffmpeg_cmd_audio_only "combined.wav".toList "out.m4b".toList := by
  refine ⟨by decide, by decide, by decide, by decide, by decide, by decide⟩

/-- Claim C7: in the piped synthesis strategy the driver checks both exit
codes after waiting for both processes: the branch reports success exactly
when both the encoder and the synthesizer exited zero, and otherwise raises an
error carrying the exit code and captured stderr of a process that exited
non-zero (the encoder is checked first). -/
theorem c7_piped_strategy_checks_both_exit_codes
    (cmd_speak cmd_enc : List String) (speak enc : ProcOutcome) :
    (run_piped cmd_speak cmd_enc speak enc = Except.ok ()
        ↔ enc.returncode = 0 ∧ speak.returncode = 0)
    ∧ (enc.returncode ≠ 0 →
        run_piped cmd_speak cmd_enc speak enc
          = Except.error { cmd := cmd_enc, returncode := enc.returncode,
                           stderrBytes := enc.stderrBytes })
    ∧ (enc.returncode = 0 → speak.returncode ≠ 0 →
        run_piped cmd_speak cmd_enc speak enc
          = Except.error { cmd := cmd_speak, returncode := speak.returncode,
                           stderrBytes := speak.stderrBytes }) := by
  refine ⟨?_, ?_, ?_⟩
  · by_cases h1 : enc.returncode = 0 <;> by_cases h2 : speak.returncode = 0 <;>
      simp [run_piped, h1, h2]
  · intro h1
    simp [run_piped, h1]
  · intro h1 h2
    simp [run_piped, h1, h2]

/-- Claim C7, witness: with the encoder exiting 1 (stderr byte 7) and the
synthesizer exiting 0, the piped driver raises the encoder's error with its
captured diagnostic stream. -/
theorem c7_piped_strategy_checks_both_exit_codes_witness :
    run_piped ["espeak-ng"] ["lame"]
        { returncode := 0, stderrBytes := [] }
        { returncode := 1, stderrBytes := [7] }
      = Except.error { cmd := ["lame"], returncode := 1, stderrBytes := [7] } :=
  (c7_piped_strategy_checks_both_exit_codes ["espeak-ng"] ["lame"]
      { returncode := 0, stderrBytes := [] }
      { returncode := 1, stderrBytes := [7] }).2.1 (by decide)

/-- Claim C8: the ebook-to-TXT normalization step succeeds exactly when the
external converter exits zero and its output file exists and is non-empty;
equivalently it aborts with a conversion error exactly when the converter
exits non-zero or the output is missing or empty.  The embedded step invokes
the converter once, with no retry. -/
theorem c8_conversion_error_iff (rc : Int) (outputExists : Bool) (outputSize : Nat) :
    convert_to_txt_step rc outputExists outputSize = Except.ok ()
      ↔ rc = 0 ∧ outputExists = true ∧ outputSize ≠ 0 := by
  by_cases h1 : rc = 0
  · by_cases h2 : outputExists = true
    · by_cases h3 : outputSize = 0 <;> simp [convert_to_txt_step, h1, h2, h3]
    · rw [Bool.not_eq_true] at h2
      simp [convert_to_txt_step, h1, h2]
  · simp [convert_to_txt_step, h1]

/-- Claim C10: on the single-file pipeline, given that the audio-generation
command exited zero, the conversion still returns a null audio output unless
the produced file exists and is at least 1024 bytes; in particular an existing
non-empty file of 1023 bytes is rejected, so the postcondition is strictly
stronger than non-emptiness. -/
theorem c10_min_output_size_postcondition (rc : Int) (outputExists : Bool)
    (outputSize : Nat) (path : List Char) :
    rc = 0 →
      (convert_result_audio rc outputExists outputSize path = some path
          ↔ outputExists = true ∧ 1024 ≤ outputSize)
      ∧ (convert_result_audio rc outputExists outputSize path = none
          ↔ ¬(outputExists = true ∧ 1024 ≤ outputSize)) := by
  intro h1
  by_cases h2 : outputExists = true
  · by_cases h3 : outputSize < 1024
    · constructor
      · simp only [convert_result_audio, h1, h2]
        simp [h3]
        try omega
      · simp only [convert_result_audio, h1, h2]
        simp [h3]
        try omega
    · constructor
      · simp only [convert_result_audio, h1, h2]
        simp [h3]
        try omega
      · simp only [convert_result_audio, h1, h2]
        simp [h3]
        try omega
  · rw [Bool.not_eq_true] at h2
    constructor
    · simp [convert_result_audio, h1, h2]
    · simp [convert_result_audio, h1, h2]

/-- Claim C10, witness: with the audio command exiting zero and an existing
output file of 1023 bytes (non-empty but below the 1KB floor), the conversion
returns a null audio output. -/
theorem c10_min_output_size_postcondition_witness :
    convert_result_audio 0 true 1023 "book.wav".toList = none :=
  ((c10_min_output_size_postcondition 0 true 1023 "book.wav".toList rfl).2).mpr
    (by decide)

lemma genMetaGo_length (ds : List Nat) :
    ∀ (s idx : Nat), (genMetaGo ds s idx).length = ds.length := by
  induction ds with
  | nil => intro s idx; rfl
  | cons d rest ih => intro s idx; simp [genMetaGo, ih]

lemma genMetaGo_getElem (ds : List Nat) :
    ∀ (s idx i d : Nat), ds[i]? = some d →
      (genMetaGo ds s idx)[i]?
        = some { START := s + (ds.take i).sum, END := s + (ds.take i).sum + d,
                 title := "Chapter " ++ toString (idx + i + 1) } := by
  induction ds with
  | nil => intro s idx i d h; simp at h
  | cons d0 rest ih =>
    intro s idx i d h
    cases i with
    | zero =>
      rw [List.getElem?_cons_zero] at h
      obtain rfl := Option.some.inj h
      simp [genMetaGo]
    | succ n =>
      rw [List.getElem?_cons_succ] at h
      have h2 := ih (s + d0) (idx + 1) n d h
      have e1 : ((d0 :: rest).take (n + 1)).sum = d0 + (rest.take n).sum := by
        rw [show (d0 :: rest).take (n + 1) = d0 :: rest.take n from rfl, List.sum_cons]
      have e2 : idx + (n + 1) + 1 = idx + 1 + n + 1 := by omega
      rw [show genMetaGo (d0 :: rest) s idx
            = { START := s, END := s + d0, title := "Chapter " ++ toString (idx + 1) }
              :: genMetaGo rest (s + d0) (idx + 1) from rfl]
      rw [List.getElem?_cons_succ, h2, e1, e2, ← Nat.add_assoc]

/-- Claim C5: for chapter audio durations d1..dN in milliseconds, the chapter
marker metadata has exactly N entries, and the i-th entry (0-based i) has
START equal to the sum of the first i durations, END equal to START plus the
i-th duration, and title "Chapter i+1". -/
theorem c5_chapter_marker_metadata (durations : List Nat) :
    (generate_ffmpeg_metadata durations).length = durations.length
    ∧ ∀ i d m, durations[i]? = some d →
        (generate_ffmpeg_metadata durations)[i]? = some m →
        m.START = (durations.take i).sum
        ∧ m.END = m.START + d
        ∧ m.title = "Chapter " ++ toString (i + 1) := by
  constructor
  · exact genMetaGo_length durations 0 0
  · intro i d m h1 h2
    have h3 := genMetaGo_getElem durations 0 0 i d h1
    rw [show generate_ffmpeg_metadata durations = genMetaGo durations 0 0 from rfl] at h2
    rw [h3] at h2
    obtain rfl := (Option.some.inj h2).symm
    refine ⟨by simp, by simp, by simp⟩

/-- Claim C5, witness: for durations [5, 7] the second marker starts at
5 = 0 + 5, ends at 12 = 5 + 7, and is titled "Chapter 2". -/
theorem c5_chapter_marker_metadata_witness :
    ({ START := 5, END := 12, title := "Chapter 2" } : ChapterMark).START
        = (([5, 7] : List Nat).take 1).sum
    ∧ ({ START := 5, END := 12, title := "Chapter 2" } : ChapterMark).END
        = ({ START := 5, END := 12, title := "Chapter 2" } : ChapterMark).START + 7
    ∧ ({ START := 5, END := 12, title := "Chapter 2" } : ChapterMark).title
        = "Chapter " ++ toString (1 + 1) :=
  (c5_chapter_marker_metadata [5, 7]).2 1 7
    { START := 5, END := 12, title := "Chapter 2" } (by decide) (by decide)

lemma zipWith_getElem_some {α β γ : Type} (f : α → β → γ) :
    ∀ (as : List α) (bs : List β) (i : Nat) (a : α) (b : β),
      as[i]? = some a → bs[i]? = some b → (List.zipWith f as bs)[i]? = some (f a b) := by
  intro as
  induction as with
  | nil => intro bs i a b h _; simp at h
  | cons a0 as2 ih =>
    intro bs i a b h1 h2
    cases bs with
    | nil => simp at h2
    | cons b0 bs2 =>
      cases i with
      | zero =>
        rw [List.getElem?_cons_zero] at h1 h2
        obtain rfl := Option.some.inj h1
        obtain rfl := Option.some.inj h2
        rw [show List.zipWith f (a0 :: as2) (b0 :: bs2) = f a0 b0 :: List.zipWith f as2 bs2
              from rfl]
        rw [List.getElem?_cons_zero]
      | succ n =>
        rw [List.getElem?_cons_succ] at h1 h2
        rw [show List.zipWith f (a0 :: as2) (b0 :: bs2) = f a0 b0 :: List.zipWith f as2 bs2
              from rfl]
        rw [List.getElem?_cons_succ]
        exact ih bs2 n a b h1 h2

lemma convert_chapter_audio_eq_reduceOption :
    ∀ (os : List SynthOutcome) (ss : List (List Char)),
      convert_chapter_audio os ss = (sentence_slots os ss).reduceOption := by
  intro os
  induction os with
  | nil =>
    intro ss
    cases ss with
    | nil => rfl
    | cons s ss2 => rfl
  | cons o os2 ih =>
    intro ss
    cases ss with
    | nil => rfl
    | cons s ss2 =>
      rw [show sentence_slots (o :: os2) (s :: ss2)
            = process_sentence o s :: sentence_slots os2 ss2 from rfl]
      cases hps : process_sentence o s with
      | some seg =>
        rw [show convert_chapter_audio (o :: os2) (s :: ss2)
              = seg :: convert_chapter_audio os2 ss2 from by
            simp [convert_chapter_audio, hps]]
        rw [List.reduceOption_cons_of_some, ih]
      | none =>
        rw [show convert_chapter_audio (o :: os2) (s :: ss2)
              = convert_chapter_audio os2 ss2 from by
            simp [convert_chapter_audio, hps]]
        rw [List.reduceOption_cons_of_none, ih]

/-- Claim C4: in the per-sentence synthesis loop, the chapter audio equals the
concatenation of the per-sentence results in order (so a failed sentence never
aborts the remainder of the chapter: every sentence gets a slot and the loop
continues); a sentence whose synthesis fails twice, or whose produced wav is
zero bytes, contributes no audio; a sentence whose first call exits zero is
spoken as-is, and one retried successfully is spoken exactly once in its
sanitized form. -/
theorem c4_sentence_retry_and_skip (os : List SynthOutcome) (ss : List (List Char)) :
    convert_chapter_audio os ss = (sentence_slots os ss).reduceOption
    ∧ (os.length = ss.length → (sentence_slots os ss).length = ss.length)
    ∧ ∀ (i : Nat) (o : SynthOutcome) (s : List Char), os[i]? = some o → ss[i]? = some s →
        (((o.rc1 ≠ 0 ∧ o.rc2 ≠ 0) ∨ o.size = 0) →
            (sentence_slots os ss)[i]? = some none)
        ∧ (o.rc1 = 0 → o.size > 0 →
            (sentence_slots os ss)[i]? = some (some s))
        ∧ (o.rc1 ≠ 0 → o.rc2 = 0 → o.size > 0 →
            (sentence_slots os ss)[i]? = some (some (sanitize_sentence s))) := by
  refine ⟨convert_chapter_audio_eq_reduceOption os ss, ?_, ?_⟩
  · intro hlen
    rw [sentence_slots, List.length_zipWith, hlen, Nat.min_self]
  · intro i o s h1 h2
    have hz := zipWith_getElem_some process_sentence os ss i o s h1 h2
    rw [sentence_slots]
    refine ⟨?_, ?_, ?_⟩
    · rintro (⟨ha, hb⟩ | hsize)
      · rw [hz]
        simp [process_sentence, synth_attempt_text, ha, hb]
      · rw [hz]
        by_cases hr1 : o.rc1 = 0 <;> by_cases hr2 : o.rc2 = 0 <;>
          simp [process_sentence, synth_attempt_text, hr1, hr2, hsize]
    · intro hr1 hsz
      rw [hz]
      simp [process_sentence, synth_attempt_text, hr1, hsz]
    · intro hr1 hr2 hsz
      rw [hz]
      simp [process_sentence, synth_attempt_text, hr1, hr2, hsz]

/-- Claim C4, witness: three sentences where the first is retried successfully
with its sanitized text, the second fails both calls and contributes nothing,
and the third succeeds directly — the second failure does not stop the third
sentence from being processed. -/
theorem c4_sentence_retry_and_skip_witness :
    (sentence_slots
        [{ rc1 := 1, rc2 := 0, size := 5 }, { rc1 := 1, rc2 := 1, size := 5 },
         { rc1 := 0, rc2 := 0, size := 7 }]
        ["a--b".toList, "c".toList, "d".toList])[1]? = some none
    ∧ (sentence_slots
        [{ rc1 := 1, rc2 := 0, size := 5 }, { rc1 := 1, rc2 := 1, size := 5 },
         { rc1 := 0, rc2 := 0, size := 7 }]
        ["a--b".toList, "c".toList, "d".toList])[0]?
        = some (some (sanitize_sentence "a--b".toList))
    ∧ (sentence_slots
        [{ rc1 := 1, rc2 := 0, size := 5 }, { rc1 := 1, rc2 := 1, size := 5 },
         { rc1 := 0, rc2 := 0, size := 7 }]
        ["a--b".toList, "c".toList, "d".toList])[2]? = some (some "d".toList) :=
  ⟨((c4_sentence_retry_and_skip
      [{ rc1 := 1, rc2 := 0, size := 5 }, { rc1 := 1, rc2 := 1, size := 5 },
       { rc1 := 0, rc2 := 0, size := 7 }]
      ["a--b".toList, "c".toList, "d".toList]).2.2 1
      { rc1 := 1, rc2 := 1, size := 5 } "c".toList (by decide) (by decide)).1
      (by decide),
   ((c4_sentence_retry_and_skip
      [{ rc1 := 1, rc2 := 0, size := 5 }, { rc1 := 1, rc2 := 1, size := 5 },
       { rc1 := 0, rc2 := 0, size := 7 }]
      ["a--b".toList, "c".toList, "d".toList]).2.2 0
      { rc1 := 1, rc2 := 0, size := 5 } "a--b".toList (by decide) (by decide)).2.2
      (by decide) (by decide) (by decide),
   ((c4_sentence_retry_and_skip
      [{ rc1 := 1, rc2 := 0, size := 5 }, { rc1 := 1, rc2 := 1, size := 5 },
       { rc1 := 0, rc2 := 0, size := 7 }]
      ["a--b".toList, "c".toList, "d".toList]).2.2 2
      { rc1 := 0, rc2 := 0, size := 7 } "d".toList (by decide) (by decide)).2.1
      (by decide) (by decide)⟩

lemma firstMatchIdx_spec (pat : List Char) :
    ∀ (text : List Char) (m : Nat), firstMatchIdx pat text = some m →
      occursAt text pat m ∧ ∀ j, j < m → ¬ occursAt text pat j := by
  intro text
  induction text with
  | nil =>
    intro m h
    by_cases hb : beginsWith pat [] = true
    · rw [show firstMatchIdx pat [] = if beginsWith pat [] then some 0 else none from rfl,
          if_pos hb] at h
      obtain rfl := Option.some.inj h
      exact ⟨hb, fun j hj => absurd hj (Nat.not_lt_zero j)⟩
    · rw [show firstMatchIdx pat [] = if beginsWith pat [] then some 0 else none from rfl,
          if_neg hb] at h
      simp at h
  | cons c t ih =>
    intro m h
    by_cases hb : beginsWith pat (c :: t) = true
    · rw [show firstMatchIdx pat (c :: t)
            = if beginsWith pat (c :: t) then some 0
              else (firstMatchIdx pat t).map (fun k => k + 1) from rfl,
          if_pos hb] at h
      obtain rfl := Option.some.inj h
      refine ⟨?_, fun j hj => absurd hj (Nat.not_lt_zero j)⟩
      unfold occursAt
      rw [List.drop_zero]
      exact hb
    · rw [show firstMatchIdx pat (c :: t)
            = if beginsWith pat (c :: t) then some 0
              else (firstMatchIdx pat t).map (fun k => k + 1) from rfl,
          if_neg hb] at h
      cases hf : firstMatchIdx pat t with
      | none => rw [hf] at h; simp at h
      | some k =>
        rw [hf] at h
        simp at h
        subst h
        obtain ⟨h1, h2⟩ := ih k hf
        constructor
        · unfold occursAt at h1 ⊢
          rw [List.drop_succ_cons]
          exact h1
        · intro j hj
          cases j with
          | zero =>
            unfold occursAt
            rw [List.drop_zero]
            simp [hb]
          | succ j2 =>
            unfold occursAt
            rw [List.drop_succ_cons]
            exact h2 j2 (by omega)

lemma occursAt_firstMatchIdx (pat : List Char) :
    ∀ (text : List Char) (k : Nat), occursAt text pat k →
      ∃ m, firstMatchIdx pat text = some m := by
  intro text
  induction text with
  | nil =>
    intro k h
    unfold occursAt at h
    rw [List.drop_nil] at h
    exact ⟨0, by
      rw [show firstMatchIdx pat [] = if beginsWith pat [] then some 0 else none from rfl,
          if_pos h]⟩
  | cons c t ih =>
    intro k h
    by_cases hb : beginsWith pat (c :: t) = true
    · exact ⟨0, by
        rw [show firstMatchIdx pat (c :: t)
              = if beginsWith pat (c :: t) then some 0
                else (firstMatchIdx pat t).map (fun k => k + 1) from rfl,
            if_pos hb]⟩
    · cases k with
      | zero =>
        unfold occursAt at h
        rw [List.drop_zero] at h
        exact absurd h hb
      | succ k2 =>
        unfold occursAt at h
        rw [List.drop_succ_cons] at h
        obtain ⟨m, hm⟩ := ih k2 h
        refine ⟨m + 1, ?_⟩
        rw [show firstMatchIdx pat (c :: t)
              = if beginsWith pat (c :: t) then some 0
                else (firstMatchIdx pat t).map (fun k => k + 1) from rfl,
            if_neg hb, hm]
        rfl

/-- Claim C9 (amended): for every sentence recorded by the chapter CSV loop,
if the search for the sentence in the marker-prefixed chapter text
("NEWCHAPTERABC" prepended to the raw chapter text when it is non-empty)
succeeds at index m, then the recorded row carries start offset m, end offset
m plus the sentence's length, and m is the position of the FIRST occurrence of
the sentence within that marker-prefixed text: it occurs at m and at no
earlier index.  (The claim as stated — offsets into the chapter's raw text —
fails; see the counterexample.) -/
theorem c9_offsets_are_first_match_in_marked_text (chapter_number : Nat)
    (raw : List Char) (sentences : List (List Char)) (i : Nat) (s : List Char) (m : Nat)
    (h1 : sentences[i]? = some s)
    (h2 : firstMatchIdx s (chapter_search_text raw) = some m) :
    (process_chapter_rows chapter_number raw sentences)[i]?
        = some { sentence := s, start_location := (m : Int),
                 end_location := (m : Int) + s.length, chapter := chapter_number }
    ∧ occursAt (chapter_search_text raw) s m
    ∧ ∀ j, j < m → ¬ occursAt (chapter_search_text raw) s j := by
  obtain ⟨ho, hleast⟩ := firstMatchIdx_spec s (chapter_search_text raw) m h2
  refine ⟨?_, ho, hleast⟩
  have hpy : py_find (chapter_search_text raw) s = (m : Int) := by
    unfold py_find
    rw [h2]
  unfold process_chapter_rows
  simp [List.getElem?_map, h1, hpy]

/-- Claim C9, witness: for raw chapter text "Hi. Yo." and recorded sentence
"Yo.", the search text is "NEWCHAPTERABCHi. Yo.", the recorded start offset is
17 with end offset 20 = 17 + 3, "Yo." occurs at 17 in the search text, and not
at 4 (an earlier index). -/
theorem c9_offsets_are_first_match_in_marked_text_witness :
    (process_chapter_rows 1 "Hi. Yo.".toList ["Yo.".toList])[0]?
        = some { sentence := "Yo.".toList, start_location := ((17 : Nat) : Int),
                 end_location := ((17 : Nat) : Int) + "Yo.".toList.length, chapter := 1 }
    ∧ occursAt (chapter_search_text "Hi. Yo.".toList) "Yo.".toList 17
    ∧ ¬ occursAt (chapter_search_text "Hi. Yo.".toList) "Yo.".toList 4 :=
  ⟨(c9_offsets_are_first_match_in_marked_text 1 "Hi. Yo.".toList ["Yo.".toList] 0
      "Yo.".toList 17 (by decide) (by decide)).1,
   (c9_offsets_are_first_match_in_marked_text 1 "Hi. Yo.".toList ["Yo.".toList] 0
      "Yo.".toList 17 (by decide) (by decide)).2.1,
   (c9_offsets_are_first_match_in_marked_text 1 "Hi. Yo.".toList ["Yo.".toList] 0
      "Yo.".toList 17 (by decide) (by decide)).2.2 4 (by decide)⟩

/-- Claim C9, counterexample to the claim as stated: with raw chapter text
"Hi. Yo." and tokenizer output ["NEWCHAPTERABCHi.", "Yo."], the row recorded
for "Yo." has start offset 17 — the first occurrence within the
marker-prefixed text — whereas the first occurrence of "Yo." within the
chapter's raw text is at offset 4, so the recorded offset is not the position
of the sentence within the raw text. -/
theorem c9_recorded_offset_differs_from_raw_text_position :
    (process_chapter_rows 0 "Hi. Yo.".toList
        ["NEWCHAPTERABCHi.".toList, "Yo.".toList])[1]?
        = some { sentence := "Yo.".toList, start_location := 17,
                 end_location := 20, chapter := 0 }
    ∧ py_find "Hi. Yo.".toList "Yo.".toList = 4
    ∧ (17 : Int) ≠ 4 := by
  refine ⟨by decide, by decide, by decide⟩
